import Mathlib

/-!
Verification of the Project resource endpoints of a small portfolio
backend (Express + Mongoose).  The development shallowly embeds the
middleware file (verifyToken) and the projects router (multer upload
configuration, handleValidation, normalizeTech, bufferToDataUrl, the
validation rule sets, and the five route handlers).

Modelling conventions:
  - JavaScript strings are `List Char` (named `Str`).
  - Dynamic JavaScript values occurring in request bodies and token
    payloads are the inductive type `JSValue`.
  - Request bodies are taken at handler time, that is after the
    express-validator sanitizers (trim, toBoolean, toInt,
    customSanitizer normalizeTech) have run.
  - The MongoDB collection is a `List Project`; each persistence call a
    handler makes is recorded in a `DbCall` trace.
  - MongoDB regex search ($regex with option i) is modelled for the
    pattern fragment consisting of literal characters and the dot
    metacharacter, unanchored and case-insensitive.
-/

/-- JavaScript strings are modelled as lists of characters. -/
abbrev Str := List Char

/-- Abbreviation turning a Lean string literal into the model type. -/
def lit (s : String) : Str := s.data

/-- Whitespace predicate used by the model of String.prototype.trim. -/
def isWs (c : Char) : Bool := c.isWhitespace

/-- Model of JavaScript String.prototype.trim: drop leading and trailing
whitespace. -/
def trim (s : Str) : Str :=
  ((s.dropWhile isWs).reverse.dropWhile isWs).reverse

/-- ASCII lowercasing, the model of case folding used by the i regex
option. -/
def lower (s : Str) : Str := s.map Char.toLower

/-- Dynamic JavaScript values as they occur in request bodies and token
payloads. -/
inductive JSValue where
  | undefined
  | null
  | bool (b : Bool)
  | num (n : Int)
  | str (s : Str)
  | arr (elems : List JSValue)

/-- typeof v === "string". -/
def JSValue.isStr : JSValue → Bool
  | .str _ => true
  | _ => false

/-- Array.isArray(v). -/
def JSValue.isArr : JSValue → Bool
  | .arr _ => true
  | _ => false

/-- typeof v === "boolean". -/
def JSValue.isBool : JSValue → Bool
  | .bool _ => true
  | _ => false

/-- Number.isFinite(v): true exactly on numbers (the model has no NaN or
infinities, which in JavaScript are the only non-finite numbers). -/
def JSValue.isNum : JSValue → Bool
  | .num _ => true
  | _ => false

/-- v === undefined. -/
def JSValue.isUndefined : JSValue → Bool
  | .undefined => true
  | _ => false

/-- JavaScript truthiness: undefined, null, false, 0 and the empty
string are falsy; arrays are always truthy. -/
def JSValue.truthy : JSValue → Bool
  | .undefined => false
  | .null => false
  | .bool b => b
  | .num n => n != 0
  | .str s => !s.isEmpty
  | .arr _ => true

mutual

/-- Model of the JavaScript String(v) cast.  Arrays stringify as their
elements joined with commas (Array.prototype.toString). -/
def jsToString : JSValue → Str
  | .undefined => lit "undefined"
  | .null => lit "null"
  | .bool true => lit "true"
  | .bool false => lit "false"
  | .num n => (toString n).data
  | .str s => s
  | .arr xs => jsJoin xs

/-- Array.prototype.join(",") applied to stringified elements. -/
def jsJoin : List JSValue → Str
  | [] => []
  | [x] => jsToString x
  | x :: y :: rest => jsToString x ++ ',' :: jsJoin (y :: rest)

end

/-- The string content of a value known to be a string (used where a
route has already checked typeof === "string"). -/
def jsGetStr : JSValue → Str
  | .str s => s
  | _ => []

/-- normalizeTech from the projects router: an array is mapped through
String(t).trim() and empty results are dropped (filter(Boolean)); a
string is split on commas, each segment trimmed, empties dropped; any
other value gives the empty array. -/
def normalizeTech : JSValue → List Str
  | .arr xs => (xs.map fun t => trim (jsToString t)).filter fun s => !s.isEmpty
  | .str s => ((s.splitOn ',').map trim).filter fun s => !s.isEmpty
  | _ => []

/-- Re-embedding of a normalized list as the JavaScript array of strings
that a second call to normalizeTech would receive. -/
def strListToJS (l : List Str) : JSValue := .arr (l.map JSValue.str)

/- Helper lemmas about trim. -/

theorem dropWhile_append_of_eq {p : Char → Bool} {l d : Str}
    (h : l.dropWhile p = d) : ∃ t, t ++ d = l := by
  induction l with
  | nil => exact ⟨[], by simpa using h.symm⟩
  | cons c cs ih =>
    by_cases hc : p c
    · rcases ih (by simpa [List.dropWhile, hc] using h) with ⟨t, ht⟩
      exact ⟨c :: t, by simp [ht]⟩
    · exact ⟨[], by simpa [List.dropWhile, hc] using h.symm⟩

theorem dropWhile_head_false {p : Char → Bool} {l : Str} {c : Char}
    {cs : Str} (h : l.dropWhile p = c :: cs) : p c = false := by
  induction l with
  | nil => simp at h
  | cons a as ih =>
    by_cases ha : p a
    · exact ih (by simpa [List.dropWhile, ha] using h)
    · rw [List.dropWhile_cons_of_neg (by simpa using ha)] at h
      cases h
      simpa using ha

theorem dropWhile_of_head_false {p : Char → Bool} {c : Char} {cs : Str}
    (h : p c = false) : (c :: cs).dropWhile p = c :: cs := by
  simp [List.dropWhile_cons_of_neg, h]

/-- A trimmed string does not start with whitespace. -/
theorem trim_head_not_ws {s : Str} {c : Char} {cs : Str}
    (h : trim s = c :: cs) : isWs c = false := by
  unfold trim at h
  rcases dropWhile_append_of_eq (rfl :
      (s.dropWhile isWs).reverse.dropWhile isWs =
      (s.dropWhile isWs).reverse.dropWhile isWs) with ⟨t, ht⟩
  have hrev : s.dropWhile isWs =
      ((s.dropWhile isWs).reverse.dropWhile isWs).reverse ++ t.reverse := by
    have := congrArg List.reverse ht
    simpa using this.symm
  rw [h] at hrev
  exact dropWhile_head_false (by simpa using hrev)

/-- Model of String.prototype.trim is idempotent. -/
theorem trim_trim (s : Str) : trim (trim s) = trim s := by
  have h1 : (trim s).dropWhile isWs = trim s := by
    cases hts : trim s with
    | nil => simp
    | cons c cs => exact dropWhile_of_head_false (trim_head_not_ws hts)
  unfold trim
  rw [show ((s.dropWhile isWs).reverse.dropWhile isWs).reverse = trim s
        from rfl, h1]
  have h2 : (trim s).reverse = (s.dropWhile isWs).reverse.dropWhile isWs := by
    simp [trim]
  rw [h2, List.dropWhile_idempotent]
  simp [trim]

/-- Every element of a normalizeTech result is a trimmed non-empty
string. -/
theorem normalizeTech_mem {v : JSValue} {s : Str}
    (h : s ∈ normalizeTech v) : trim s = s ∧ s ≠ [] := by
  have main : ∀ l : List Str, s ∈ l.filter (fun s => !s.isEmpty) →
      (∃ x, x ∈ l ∧ s = trim x) → trim s = s ∧ s ≠ [] := by
    intro l hmem hex
    rcases hex with ⟨x, _, hx⟩
    refine ⟨by rw [hx, trim_trim], ?_⟩
    have := (List.mem_filter.mp hmem).2
    simpa [List.isEmpty_iff] using this
  cases v with
  | arr xs =>
    have hmem : s ∈ (xs.map fun t => trim (jsToString t)).filter
        fun s => !s.isEmpty := by simpa [normalizeTech] using h
    have hx := (List.mem_filter.mp hmem).1
    rcases List.mem_map.mp hx with ⟨t, _, ht⟩
    refine ⟨by rw [← ht, trim_trim], ?_⟩
    have := (List.mem_filter.mp hmem).2
    simpa [List.isEmpty_iff] using this
  | str s0 =>
    have hmem : s ∈ ((s0.splitOn ',').map trim).filter
        fun s => !s.isEmpty := by simpa [normalizeTech] using h
    have hx := (List.mem_filter.mp hmem).1
    rcases List.mem_map.mp hx with ⟨t, _, ht⟩
    refine ⟨by rw [← ht, trim_trim], ?_⟩
    have := (List.mem_filter.mp hmem).2
    simpa [List.isEmpty_iff] using this
  | undefined => simp [normalizeTech] at h
  | null => simp [normalizeTech] at h
  | bool b => simp [normalizeTech] at h
  | num n => simp [normalizeTech] at h

/-- C8: normalizeTech maps "a, b ,,c" to ["a","b","c"] and
["x "," y"] to ["x","y"]; an array input is elementwise stringified,
trimmed and cleared of empties in order; a string input is split on
commas, trimmed, cleared of empties; every other input type yields the
empty array. -/
theorem C8_normalizeTech_spec :
    normalizeTech (.str (lit "a, b ,,c")) = [lit "a", lit "b", lit "c"]
    ∧ normalizeTech (.arr [.str (lit "x "), .str (lit " y")])
        = [lit "x", lit "y"]
    ∧ (∀ xs : List JSValue, normalizeTech (.arr xs)
        = (xs.map fun t => trim (jsToString t)).filter fun s => !s.isEmpty)
    ∧ (∀ s : Str, normalizeTech (.str s)
        = ((s.splitOn ',').map trim).filter fun s => !s.isEmpty)
    ∧ normalizeTech .undefined = []
    ∧ normalizeTech .null = []
    ∧ (∀ b : Bool, normalizeTech (.bool b) = [])
    ∧ (∀ n : Int, normalizeTech (.num n) = []) := by
  refine ⟨by decide, by decide, fun xs => rfl, fun s => rfl, rfl, rfl,
    fun b => rfl, fun n => rfl⟩

/-- C9: normalizeTech is a total function of the model (it is defined on
every JSValue) and is idempotent: re-normalizing its own output, seen
again as a JavaScript array of strings, returns the same list. -/
theorem C9_normalizeTech_idempotent (v : JSValue) :
    normalizeTech (strListToJS (normalizeTech v)) = normalizeTech v := by
  have hmap : ((normalizeTech v).map JSValue.str).map
      (fun t => trim (jsToString t)) = normalizeTech v := by
    rw [List.map_map]
    have : ∀ s ∈ normalizeTech v,
        (fun t => trim (jsToString t)) (JSValue.str s) = s := by
      intro s hs
      simpa [jsToString] using (normalizeTech_mem hs).1
    calc ((normalizeTech v).map
            ((fun t => trim (jsToString t)) ∘ JSValue.str))
        = (normalizeTech v).map id := List.map_congr_left (by
            intro s hs
            simpa using this s hs)
      _ = normalizeTech v := List.map_id _
  have hfilter : (normalizeTech v).filter (fun s => !s.isEmpty)
      = normalizeTech v := by
    apply List.filter_eq_self.mpr
    intro s hs
    have := (normalizeTech_mem hs).2
    simpa [List.isEmpty_iff] using this
  calc normalizeTech (strListToJS (normalizeTech v))
      = (((normalizeTech v).map JSValue.str).map
          (fun t => trim (jsToString t))).filter (fun s => !s.isEmpty) := rfl
    _ = (normalizeTech v).filter (fun s => !s.isEmpty) := by rw [hmap]
    _ = normalizeTech v := hfilter

/- ----- Search and sort (GET /api/projects) ----- -/

/-- A stored Project document.  createdAt is the creation timestamp. -/
structure Project where
  id : Str
  title : Str
  description : Str
  tech : List Str
  githubUrl : Str
  demoUrl : Str
  featured : Bool
  order : Int
  coverImage : Option Str
  createdAt : Int
deriving DecidableEq

/-- Regex tokens for the pattern fragment the routes use: literal
characters and the dot metacharacter. -/
inductive RTok where
  | anyChar
  | ch (c : Char)

/-- Reading of a $regex pattern string: a dot is the any-character
metacharacter, every other character a literal (lowercased, since the
query uses the i option). -/
def patTokens (q : Str) : List RTok :=
  q.map fun c => if c = '.' then RTok.anyChar else RTok.ch c.toLower

/-- One token against one subject character; dot matches anything but a
newline, a literal matches case-insensitively. -/
def tokMatch : RTok → Char → Bool
  | .anyChar, c => c != '\n'
  | .ch a, c => a == c.toLower

/-- Match a token list against the start of the subject. -/
def matchHere : List RTok → Str → Bool
  | [], _ => true
  | _ :: _, [] => false
  | t :: ts, c :: cs => tokMatch t c && matchHere ts cs

/-- Unanchored search: try every suffix of the subject. -/
def searchFrom (ts : List RTok) : Str → Bool
  | [] => matchHere ts []
  | c :: cs => matchHere ts (c :: cs) || searchFrom ts cs

/-- Model of MongoDB field matching with $regex pattern q and
$options i (for patterns of literals and dots). -/
def regexTestI (q s : Str) : Bool := searchFrom (patTokens q) s

/-- The $or filter of the list route: title, description, or some tech
entry matches the pattern. -/
def matchProject (q : Str) (p : Project) : Bool :=
  regexTestI q p.title || regexTestI q p.description
    || p.tech.any fun t => regexTestI q t

/-- Rank used for the featured sort key: featured descending means
featured records first. -/
def featRank (b : Bool) : Nat := if b then 0 else 1

/-- The composite sort order of the list route: featured descending,
order ascending, createdAt descending. -/
def projLE (a b : Project) : Bool :=
  decide (featRank a.featured < featRank b.featured)
  || ((featRank a.featured == featRank b.featured)
      && (decide (a.order < b.order)
          || ((a.order == b.order) && decide (b.createdAt ≤ a.createdAt))))

/-- The sort applied by Project.find(...).sort(...). -/
def sortProjects (l : List Project) : List Project := l.mergeSort projLE

/-- GET /api/projects: trim the q query parameter (absent reads as the
empty string); an empty query selects everything, otherwise the $or
regex filter applies; the result is sorted by the composite order. -/
def listProjects (db : List Project) (qopt : Option Str) : List Project :=
  let q := trim (qopt.getD [])
  let filtered := if q.isEmpty then db else db.filter (matchProject q)
  sortProjects filtered

/-- Literal substring search (case-insensitive), the matching the spec
describes: needle appears verbatim in the haystack. -/
def substrSearch (n : Str) : Str → Bool
  | [] => n.isEmpty
  | c :: cs => n.isPrefixOf (c :: cs) || substrSearch n cs

/-- Case-insensitive literal substring containment, written from the
spec wording for comparison with the regex behaviour of the code. -/
def specContainsI (q s : Str) : Bool := substrSearch (lower q) (lower s)

/-- Spec-side project filter: some searched field contains q as a
literal substring, case-insensitively. -/
def specMatchProject (q : Str) (p : Project) : Bool :=
  specContainsI q p.title || specContainsI q p.description
    || p.tech.any fun t => specContainsI q t

/-- The PCRE metacharacters; a pattern free of them reads as a literal
string. -/
def isRegexMeta (c : Char) : Bool :=
  c = '.' || c = '^' || c = '$' || c = '*' || c = '+' || c = '?'
    || c = '(' || c = ')' || c = '[' || c = ']' || c = '|' || c = '\\'

theorem projLE_trans (a b c : Project) (hab : projLE a b = true)
    (hbc : projLE b c = true) : projLE a c = true := by
  simp only [projLE, Bool.or_eq_true, Bool.and_eq_true, decide_eq_true_eq,
    beq_iff_eq] at hab hbc ⊢
  omega

theorem projLE_total (a b : Project) : (projLE a b || projLE b a) = true := by
  simp only [projLE, Bool.or_eq_true, Bool.and_eq_true, decide_eq_true_eq,
    beq_iff_eq]
  omega

/- Equivalence of regex matching and literal substring containment for
patterns free of metacharacters. -/

theorem matchHere_no_meta (q : Str) (hq : ∀ c ∈ q, isRegexMeta c = false) :
    ∀ s : Str, matchHere (patTokens q) s = (lower q).isPrefixOf (lower s) := by
  induction q with
  | nil => intro s; simp [patTokens, matchHere, lower, List.isPrefixOf]
  | cons c q' ih =>
    intro s
    have hc : ¬ c = '.' := by
      have := hq c (by simp)
      simp [isRegexMeta] at this
      exact fun h => by simp [h] at this
    have hq' : ∀ c ∈ q', isRegexMeta c = false := fun d hd => hq d (by simp [hd])
    cases s with
    | nil => simp [patTokens, matchHere, lower, List.isPrefixOf, hc]
    | cons d s' =>
      have := ih hq' s'
      simp [patTokens, matchHere, tokMatch, hc, lower, List.isPrefixOf] at this ⊢
      rw [this]

theorem searchFrom_no_meta (q : Str) (hq : ∀ c ∈ q, isRegexMeta c = false) :
    ∀ s : Str, searchFrom (patTokens q) s = substrSearch (lower q) (lower s) := by
  intro s
  induction s with
  | nil =>
    rw [show lower [] = [] from rfl]
    rw [show searchFrom (patTokens q) [] = matchHere (patTokens q) [] from rfl]
    rw [matchHere_no_meta q hq []]
    cases h : lower q with
    | nil => simp [List.isPrefixOf, substrSearch]
    | cons a as => simp [List.isPrefixOf, substrSearch]
  | cons c cs ih =>
    rw [show lower (c :: cs) = c.toLower :: lower cs from rfl]
    rw [show searchFrom (patTokens q) (c :: cs)
        = (matchHere (patTokens q) (c :: cs) || searchFrom (patTokens q) cs)
        from rfl]
    rw [show substrSearch (lower q) (c.toLower :: lower cs)
        = ((lower q).isPrefixOf (c.toLower :: lower cs)
            || substrSearch (lower q) (lower cs)) from rfl]
    rw [matchHere_no_meta q hq (c :: cs), ih]
    rfl

theorem regexTestI_no_meta (q s : Str)
    (hq : ∀ c ∈ q, isRegexMeta c = false) :
    regexTestI q s = specContainsI q s :=
  searchFrom_no_meta q hq s

/-- C3: the list returned by the List/Search operation is pairwise
ordered by the composite key: featured records precede non-featured
ones, equal featured sorts by ascending order, equal featured and order
sorts by descending creation time. -/
def sortSpecRel (a b : Project) : Prop :=
  (b.featured = true → a.featured = true)
  ∧ (a.featured = b.featured → a.order ≤ b.order)
  ∧ (a.featured = b.featured → a.order = b.order →
      b.createdAt ≤ a.createdAt)

theorem projLE_imp_sortSpecRel (a b : Project) (h : projLE a b = true) :
    sortSpecRel a b := by
  simp only [projLE, Bool.or_eq_true, Bool.and_eq_true, decide_eq_true_eq,
    beq_iff_eq] at h
  refine ⟨?_, ?_, ?_⟩ <;>
    cases ha : a.featured <;> cases hb : b.featured <;>
      simp [featRank, ha, hb] at h ⊢ <;> omega

/-- C3: for every stored set of projects and every query, the result of
the List/Search operation is sorted with every featured record before
every non-featured one, ascending order among equal featured, and
descending creation time among equal featured and order. -/
theorem C3_list_sorted (db : List Project) (qopt : Option Str) :
    List.Pairwise sortSpecRel (listProjects db qopt) := by
  unfold listProjects sortProjects
  exact (List.sorted_mergeSort projLE_trans projLE_total _).imp
    fun h => projLE_imp_sortSpecRel _ _ h

/-- A concrete stored project used for counterexamples and witnesses. -/
def P0 : Project :=
  { id := lit "000000000000000000000000"
    title := lit "abc"
    description := lit "zzzzzzzzzz"
    tech := []
    githubUrl := []
    demoUrl := []
    featured := false
    order := 0
    coverImage := none
    createdAt := 0 }

/-- C1 counterexample: with the stored set [P0] (title "abc") and the
query "a.c", the operation returns [P0] because the dot is interpreted
as a regex metacharacter, while literal substring containment as claimed
selects nothing: "a.c" is not a literal substring of any field of P0. -/
theorem C1_regex_counterexample :
    listProjects [P0] (some (lit "a.c")) = [P0]
    ∧ [P0].filter (specMatchProject (lit "a.c")) = [] := by
  have ht : trim ((some (lit "a.c")).getD []) = lit "a.c" := by decide
  have hne : (lit "a.c").isEmpty = false := by decide
  have hf : [P0].filter (matchProject (lit "a.c")) = [P0] := by decide
  refine ⟨?_, by decide⟩
  unfold listProjects
  have hY : (lit "a.c" : Str) ≠ [] := by decide
  have hX : trim (lit "a.c") = lit "a.c" := by decide
  simp [ht, hX, hY, hf, sortProjects, List.mergeSort_singleton]

/-- C1 amended: if q is absent or blank the operation returns all
projects (sorted); otherwise it returns exactly the projects whose
title, description, or some tech entry matches q interpreted as a
case-insensitive unanchored regular expression; for q containing no
regex metacharacter this coincides with case-insensitive literal
substring containment. -/
theorem C1_list_search (db : List Project) (qopt : Option Str) :
    (trim (qopt.getD []) = [] → listProjects db qopt = sortProjects db)
    ∧ (∀ p : Project, p ∈ listProjects db qopt ↔ p ∈ db ∧
        (trim (qopt.getD []) = []
          ∨ matchProject (trim (qopt.getD [])) p = true))
    ∧ (∀ q : Str, ∀ p : Project, (∀ c ∈ q, isRegexMeta c = false) →
        matchProject q p = specMatchProject q p) := by
  refine ⟨?_, ?_, ?_⟩
  · intro h
    unfold listProjects
    rw [h]
    rfl
  · intro p
    unfold listProjects sortProjects
    rw [List.mem_mergeSort]
    cases hq : (trim (qopt.getD [])).isEmpty with
    | true =>
      have : trim (qopt.getD []) = [] := by
        simpa [List.isEmpty_iff] using hq
      simp [hq, this]
    | false =>
      have : ¬ trim (qopt.getD []) = [] := by
        simpa [List.isEmpty_iff] using hq
      simp [hq, List.mem_filter, this]
  · intro q p hq
    unfold matchProject specMatchProject
    rw [regexTestI_no_meta q p.title hq, regexTestI_no_meta q p.description hq]
    have hfun : (fun t => regexTestI q t) = fun t => specContainsI q t :=
      funext fun t => regexTestI_no_meta q t hq
    rw [hfun]

/-- C1 witness: concrete instances of the amended theorem, with every
hypothesis discharged by evaluation. -/
theorem C1_list_search_witness :
    listProjects [P0] none = sortProjects [P0]
    ∧ matchProject (lit "abc") P0 = specMatchProject (lit "abc") P0 := by
  exact ⟨(C1_list_search [P0] none).1 (by decide),
    (C1_list_search [P0] none).2.2 (lit "abc") P0 (by decide)⟩

/- ----- Auth middleware, upload, validation, route pipelines ----- -/

/-- An uploaded file as multer memory storage presents it: the declared
mimetype and the raw bytes of the buffer (each in 0..255). -/
structure File where
  mimetype : Str
  buffer : List Nat
deriving DecidableEq

/-- One violation record of the validation response body: the offending
field name and its message. -/
structure Violation where
  field : Str
  message : Str
deriving DecidableEq

/-- An HTTP response as far as the claims observe it: status code,
message, and the list of validation errors. -/
structure Resp where
  status : Nat
  message : Str := []
  errors : List Violation := []
deriving DecidableEq

/-- A decoded token payload: the three claims the middleware reads. -/
structure Payload where
  id : JSValue := .undefined
  _id : JSValue := .undefined
  sub : JSValue := .undefined

/-- JavaScript a || b on dynamic values: the first operand if truthy,
otherwise the second. -/
def jsOr (a b : JSValue) : JSValue := if a.truthy then a else b

/-- Token extraction of the middleware: the authorization header (empty
string when absent) yields its tail after "Bearer " when that is its
start, otherwise null. -/
def extractToken (authHeader : Option Str) : Option Str :=
  let auth := authHeader.getD []
  if (lit "Bearer ").isPrefixOf auth then some (auth.drop 7) else none

/-- verifyToken from the middleware file: 401 "Token manquant" when no
(or an empty) bearer token is present, 401 "Token invalide" when the
external jwt.verify collaborator fails, and otherwise success carrying
decoded.id || decoded._id || decoded.sub || null as the subject. -/
def verifyTokenMW (verify : Str → Option Payload) (authHeader : Option Str) :
    Except Resp JSValue :=
  match extractToken authHeader with
  | none => .error { status := 401, message := lit "Token manquant" }
  | some tok =>
    if tok.isEmpty then
      .error { status := 401, message := lit "Token manquant" }
    else
      match verify tok with
      | none => .error { status := 401, message := lit "Token invalide" }
      | some payload =>
          .ok (jsOr (jsOr (jsOr payload.id payload._id) payload.sub) .null)

/-- The multer mimetype filter regex image\/(jpe?g|png|webp), anchored
and case-insensitive. -/
def mimeOk (m : Str) : Bool :=
  lower m == lit "image/jpeg" || lower m == lit "image/jpg"
    || lower m == lit "image/png" || lower m == lit "image/webp"

/-- The multer size limit: 4 * 1024 * 1024 bytes. -/
def maxFileSize : Nat := 4 * 1024 * 1024

/-- upload.single("image"): absent file passes through; a present file
is rejected by the fileFilter when the mimetype is not an accepted image
type, and by the size limit when the buffer exceeds 4 MiB.  Multer
errors carry no status and reach the generic error handler, which
answers 500. -/
def uploadSingle (file : Option File) : Except Resp (Option File) :=
  match file with
  | none => .ok none
  | some f =>
    if !mimeOk f.mimetype then
      .error { status := 500,
               message := lit "Format image invalide (JPEG/PNG/WebP)" }
    else if f.buffer.length > maxFileSize then
      .error { status := 500, message := lit "File too large" }
    else
      .ok (some f)

/-- The base64 alphabet. -/
def b64Char (n : Nat) : Char :=
  if n < 26 then Char.ofNat (65 + n)
  else if n < 52 then Char.ofNat (97 + (n - 26))
  else if n < 62 then Char.ofNat (48 + (n - 52))
  else if n = 62 then '+'
  else '/'

/-- Standard base64 of a byte sequence (Buffer.prototype.toString with
encoding base64), with = padding. -/
def base64Encode : List Nat → Str
  | [] => []
  | [a] => [b64Char (a / 4), b64Char (a % 4 * 16), '=', '=']
  | [a, b] => [b64Char (a / 4), b64Char (a % 4 * 16 + b / 16),
      b64Char (b % 16 * 4), '=']
  | a :: b :: c :: rest =>
      b64Char (a / 4) :: b64Char (a % 4 * 16 + b / 16)
        :: b64Char (b % 16 * 4 + c / 64) :: b64Char (c % 64)
        :: base64Encode rest

/-- bufferToDataUrl from the router: data:<mime>;base64,<payload>, the
declared mimetype kept verbatim (with image/jpeg as fallback when it is
empty). -/
def bufferToDataUrl (f : File) : Str :=
  let mime := if f.mimetype.isEmpty then lit "image/jpeg" else f.mimetype
  lit "data:" ++ mime ++ lit ";base64," ++ base64Encode f.buffer

/-- A request body at handler time: the seven fields the routes read,
each a dynamic value, undefined when absent. -/
structure ReqBody where
  title : JSValue := .undefined
  description : JSValue := .undefined
  tech : JSValue := .undefined
  githubUrl : JSValue := .undefined
  demoUrl : JSValue := .undefined
  featured : JSValue := .undefined
  order : JSValue := .undefined

/-- isLength with trimmed bounds (the chains apply the trim sanitizer
before isLength). -/
def checkLen (lo hi : Nat) (s : Str) : Bool :=
  decide (lo ≤ (trim s).length) && decide ((trim s).length ≤ hi)

/-- The create rule for title: isString and length 2..120. -/
def checkTitleCreate (v : JSValue) : Bool :=
  v.isStr && checkLen 2 120 (jsGetStr v)

/-- The create rule for description: isString and length 10..3000. -/
def checkDescriptionCreate (v : JSValue) : Bool :=
  v.isStr && checkLen 10 3000 (jsGetStr v)

/-- The update rule for title: optional, else the create bounds. -/
def checkTitleUpdate (v : JSValue) : Bool :=
  v.isUndefined || checkTitleCreate v

/-- The update rule for description: optional, else the create bounds. -/
def checkDescriptionUpdate (v : JSValue) : Bool :=
  v.isUndefined || checkDescriptionCreate v

/-- The optional({checkFalsy}) isURL rules: a falsy value passes, a
truthy one must satisfy the external URL well-formedness predicate. -/
def checkOptUrl (isURL : Str → Bool) (v : JSValue) : Bool :=
  !v.truthy || isURL (jsToString v)

/-- isMongoId of the validation library: 24 hexadecimal characters. -/
def checkMongoId (s : Str) : Bool :=
  s.length == 24 && s.all fun c =>
    c.isDigit || ('a' ≤ c && c ≤ 'f') || ('A' ≤ c && c ≤ 'F')

/-- The default message of a failing validation rule. -/
def invalidValue : Str := lit "Invalid value"

/-- The violations of the create rule set, in rule order (the tech,
featured and order chains only sanitize and never fail). -/
def createViolations (isURL : Str → Bool) (b : ReqBody) : List Violation :=
  (if checkTitleCreate b.title then [] else
    [{ field := lit "title", message := invalidValue }])
  ++ (if checkDescriptionCreate b.description then [] else
    [{ field := lit "description", message := invalidValue }])
  ++ (if checkOptUrl isURL b.githubUrl then [] else
    [{ field := lit "githubUrl", message := invalidValue }])
  ++ (if checkOptUrl isURL b.demoUrl then [] else
    [{ field := lit "demoUrl", message := invalidValue }])

/-- The violations of the update rule set: the id path parameter plus
the optional field rules, in rule order. -/
def updateViolations (isURL : Str → Bool) (id : Str) (b : ReqBody) :
    List Violation :=
  (if checkMongoId id then [] else
    [{ field := lit "id", message := invalidValue }])
  ++ (if checkTitleUpdate b.title then [] else
    [{ field := lit "title", message := invalidValue }])
  ++ (if checkDescriptionUpdate b.description then [] else
    [{ field := lit "description", message := invalidValue }])
  ++ (if checkOptUrl isURL b.githubUrl then [] else
    [{ field := lit "githubUrl", message := invalidValue }])
  ++ (if checkOptUrl isURL b.demoUrl then [] else
    [{ field := lit "demoUrl", message := invalidValue }])

/-- The violations of the id-only rule set of GET /:id and DELETE. -/
def idViolations (id : Str) : List Violation :=
  if checkMongoId id then [] else
    [{ field := lit "id", message := invalidValue }]

/-- handleValidation from the router: nothing when there are no errors,
otherwise the 400 response carrying every collected violation. -/
def handleValidation (errs : List Violation) : Option Resp :=
  if errs.isEmpty then none
  else some { status := 400, message := lit "Validation error",
              errors := errs }

/-- The persistence-layer calls a handler can make. -/
inductive DbCall where
  | create (p : Project)
  | findById (id : Str)
  | save (p : Project)
  | findByIdAndDelete (id : Str)
deriving DecidableEq

/-- Project.findById on the modelled collection. -/
def dbFindById (db : List Project) (id : Str) : Option Project :=
  db.find? fun p => p.id == id

/-- Conversion of the handler-time tech value to the stored array (the
document store casts each element to a string). -/
def jsTechList : JSValue → List Str
  | .arr xs => xs.map jsToString
  | _ => []

/-- The record Project.create receives in the POST handler, built by the
destructuring with defaults tech=[], githubUrl="", demoUrl="",
featured=false, order=0, and coverImage from the optional upload. -/
def mkCreated (body : ReqBody) (file : Option File) (newId : Str)
    (now : Int) : Project :=
  { id := newId
    title := jsGetStr body.title
    description := jsGetStr body.description
    tech := jsTechList body.tech
    githubUrl := jsGetStr body.githubUrl
    demoUrl := jsGetStr body.demoUrl
    featured := match body.featured with | .bool b => b | _ => false
    order := match body.order with | .num n => n | _ => 0
    coverImage := file.map bufferToDataUrl
    createdAt := now }

/-- The field-by-field merge of the PUT handler: each stored field is
overwritten exactly when the request field passes the typeof or
Array.isArray or Number.isFinite guard of its if statement, and
coverImage exactly when a file was uploaded. -/
def applyUpdate (body : ReqBody) (file : Option File) (proj : Project) :
    Project :=
  let p := proj
  let p := if body.title.isStr then
    { p with title := trim (jsGetStr body.title) } else p
  let p := if body.description.isStr then
    { p with description := trim (jsGetStr body.description) } else p
  let p := if body.tech.isArr then
    { p with tech := jsTechList body.tech } else p
  let p := if body.githubUrl.isStr then
    { p with githubUrl := trim (jsGetStr body.githubUrl) } else p
  let p := if body.demoUrl.isStr then
    { p with demoUrl := trim (jsGetStr body.demoUrl) } else p
  let p := if body.featured.isBool then
    { p with featured := match body.featured with | .bool b => b | _ => false }
    else p
  let p := if body.order.isNum then
    { p with order := match body.order with | .num n => n | _ => 0 } else p
  match file with
  | some f => { p with coverImage := some (bufferToDataUrl f) }
  | none => p

/-- POST /api/projects: verifyToken, upload.single, createRules with
handleValidation, then Project.create.  Returns the response, the new
collection state, and the trace of persistence calls. -/
def postProject (verify : Str → Option Payload) (authHeader : Option Str)
    (file : Option File) (body : ReqBody) (isURL : Str → Bool)
    (db : List Project) (newId : Str) (now : Int) :
    Resp × List Project × List DbCall :=
  match verifyTokenMW verify authHeader with
  | .error r => (r, db, [])
  | .ok _ =>
    match uploadSingle file with
    | .error r => (r, db, [])
    | .ok f =>
      match handleValidation (createViolations isURL body) with
      | some r => (r, db, [])
      | none =>
        let proj := mkCreated body f newId now
        ({ status := 201 }, db ++ [proj], [DbCall.create proj])

/-- PUT /api/projects/:id: verifyToken, upload.single, updateRules with
handleValidation, findById, 404 when absent, otherwise the field merge
followed by save. -/
def putProject (verify : Str → Option Payload) (authHeader : Option Str)
    (id : Str) (file : Option File) (body : ReqBody) (isURL : Str → Bool)
    (db : List Project) : Resp × List Project × List DbCall :=
  match verifyTokenMW verify authHeader with
  | .error r => (r, db, [])
  | .ok _ =>
    match uploadSingle file with
    | .error r => (r, db, [])
    | .ok f =>
      match handleValidation (updateViolations isURL id body) with
      | some r => (r, db, [])
      | none =>
        match dbFindById db id with
        | none => ({ status := 404, message := lit "Projet introuvable" },
            db, [DbCall.findById id])
        | some proj =>
          let updated := applyUpdate body f proj
          ({ status := 200 },
            db.map fun q => if q.id == id then updated else q,
            [DbCall.findById id, DbCall.save updated])

/-- DELETE /api/projects/:id: verifyToken, the id rule with
handleValidation, then findByIdAndDelete, 404 when nothing matched. -/
def deleteProject (verify : Str → Option Payload) (authHeader : Option Str)
    (id : Str) (db : List Project) : Resp × List Project × List DbCall :=
  match verifyTokenMW verify authHeader with
  | .error r => (r, db, [])
  | .ok _ =>
    match handleValidation (idViolations id) with
    | some r => (r, db, [])
    | none =>
      match dbFindById db id with
      | none => ({ status := 404, message := lit "Projet introuvable" },
          db, [DbCall.findByIdAndDelete id])
      | some _ => ({ status := 200 },
          db.filter fun p => !(p.id == id),
          [DbCall.findByIdAndDelete id])

/-- GET /api/projects/:id: the id rule with handleValidation runs before
any lookup; findById then answers 404 when absent and 200 otherwise. -/
def getProject (id : Str) (db : List Project) : Resp × List DbCall :=
  match handleValidation (idViolations id) with
  | some r => (r, [])
  | none =>
    match dbFindById db id with
    | none => ({ status := 404, message := lit "Projet introuvable" },
        [DbCall.findById id])
    | some _ => ({ status := 200 }, [DbCall.findById id])

set_option maxHeartbeats 1000000 in
/-- The merge chain of the PUT handler written as one record: each field
is governed by its own guard. -/
theorem applyUpdate_eq (body : ReqBody) (file : Option File)
    (proj : Project) :
    applyUpdate body file proj =
      { id := proj.id
        title := if body.title.isStr then trim (jsGetStr body.title)
          else proj.title
        description := if body.description.isStr then
          trim (jsGetStr body.description) else proj.description
        tech := if body.tech.isArr then jsTechList body.tech else proj.tech
        githubUrl := if body.githubUrl.isStr then
          trim (jsGetStr body.githubUrl) else proj.githubUrl
        demoUrl := if body.demoUrl.isStr then trim (jsGetStr body.demoUrl)
          else proj.demoUrl
        featured := if body.featured.isBool then
          (match body.featured with | .bool b => b | _ => false)
          else proj.featured
        order := if body.order.isNum then
          (match body.order with | .num n => n | _ => 0) else proj.order
        coverImage := match file with
          | some f => some (bufferToDataUrl f)
          | none => proj.coverImage
        createdAt := proj.createdAt } := by
  cases file <;> simp only [applyUpdate] <;> split_ifs <;> rfl

/-- C2: the update merge overwrites a stored field exactly when the
request field is present with the expected type (string for the text
fields, array for tech, boolean for featured, finite number for order,
an uploaded file for coverImage); every other field keeps its stored
value, and a body holding only a title changes only the title. -/
theorem C2_update_merge_frame (body : ReqBody) (file : Option File)
    (proj : Project) :
    (applyUpdate body file proj).title
      = (if body.title.isStr then trim (jsGetStr body.title) else proj.title)
    ∧ (applyUpdate body file proj).description
      = (if body.description.isStr then trim (jsGetStr body.description)
          else proj.description)
    ∧ (applyUpdate body file proj).tech
      = (if body.tech.isArr then jsTechList body.tech else proj.tech)
    ∧ (applyUpdate body file proj).githubUrl
      = (if body.githubUrl.isStr then trim (jsGetStr body.githubUrl)
          else proj.githubUrl)
    ∧ (applyUpdate body file proj).demoUrl
      = (if body.demoUrl.isStr then trim (jsGetStr body.demoUrl)
          else proj.demoUrl)
    ∧ (applyUpdate body file proj).featured
      = (if body.featured.isBool then
          (match body.featured with | .bool b => b | _ => false)
          else proj.featured)
    ∧ (applyUpdate body file proj).order
      = (if body.order.isNum then
          (match body.order with | .num n => n | _ => 0) else proj.order)
    ∧ (applyUpdate body file proj).coverImage
      = (match file with
          | some f => some (bufferToDataUrl f)
          | none => proj.coverImage)
    ∧ (applyUpdate body file proj).id = proj.id
    ∧ (applyUpdate body file proj).createdAt = proj.createdAt
    ∧ (∀ s : Str, applyUpdate { title := JSValue.str s } none proj
        = { proj with title := trim s }) := by
  rw [applyUpdate_eq body file proj]
  refine ⟨rfl, rfl, rfl, rfl, rfl, rfl, rfl, rfl, rfl, rfl, fun s => ?_⟩
  rw [applyUpdate_eq { title := JSValue.str s } none proj]
  rfl

/-- C4: whenever the authorization header carries no bearer token, an
empty one, or one that the external verifier rejects, each of the three
mutating routes answers 401, leaves the collection unchanged, and makes
no persistence call. -/
theorem C4_auth_gate (verify : Str → Option Payload)
    (authHeader : Option Str)
    (h : ∀ t, extractToken authHeader = some t → t ≠ [] → verify t = none)
    (file : Option File) (body : ReqBody) (isURL : Str → Bool)
    (db : List Project) (newId : Str) (now : Int) (id : Str) :
    ((postProject verify authHeader file body isURL db newId now).1.status
        = 401
      ∧ (postProject verify authHeader file body isURL db newId now).2.1 = db
      ∧ (postProject verify authHeader file body isURL db newId now).2.2 = [])
    ∧ ((putProject verify authHeader id file body isURL db).1.status = 401
      ∧ (putProject verify authHeader id file body isURL db).2.1 = db
      ∧ (putProject verify authHeader id file body isURL db).2.2 = [])
    ∧ ((deleteProject verify authHeader id db).1.status = 401
      ∧ (deleteProject verify authHeader id db).2.1 = db
      ∧ (deleteProject verify authHeader id db).2.2 = []) := by
  have herr : ∃ r : Resp, verifyTokenMW verify authHeader = Except.error r
      ∧ r.status = 401 := by
    unfold verifyTokenMW
    cases hx : extractToken authHeader with
    | none => exact ⟨_, rfl, rfl⟩
    | some tok =>
      by_cases htok : tok.isEmpty
      · exact ⟨{ status := 401, message := lit "Token manquant" },
          by simp [htok], rfl⟩
      · have hne : tok ≠ [] := by
          simpa [List.isEmpty_iff] using htok
        exact ⟨{ status := 401, message := lit "Token invalide" },
          by simp [htok, h tok hx hne], rfl⟩
  rcases herr with ⟨r, hr, hst⟩
  refine ⟨⟨?_, ?_, ?_⟩, ⟨?_, ?_, ?_⟩, ⟨?_, ?_, ?_⟩⟩ <;>
    simp [postProject, putProject, deleteProject, hr, hst]

/-- C4 witness: a concrete run of the three routes with a verifier that
rejects every token. -/
theorem C4_auth_gate_witness :
    ((postProject (fun _ => none) none none {} (fun _ => true) [P0]
        (lit "1") 0).1.status = 401
      ∧ (postProject (fun _ => none) none none {} (fun _ => true) [P0]
        (lit "1") 0).2.1 = [P0]
      ∧ (postProject (fun _ => none) none none {} (fun _ => true) [P0]
        (lit "1") 0).2.2 = [])
    ∧ ((putProject (fun _ => none) none (lit "x") none {} (fun _ => true)
        [P0]).1.status = 401
      ∧ (putProject (fun _ => none) none (lit "x") none {} (fun _ => true)
        [P0]).2.1 = [P0]
      ∧ (putProject (fun _ => none) none (lit "x") none {} (fun _ => true)
        [P0]).2.2 = [])
    ∧ ((deleteProject (fun _ => none) none (lit "x") [P0]).1.status = 401
      ∧ (deleteProject (fun _ => none) none (lit "x") [P0]).2.1 = [P0]
      ∧ (deleteProject (fun _ => none) none (lit "x") [P0]).2.2 = []) :=
  C4_auth_gate (fun _ => none) none (fun _ _ _ => rfl) none {}
    (fun _ => true) [P0] (lit "1") 0 (lit "x")

/-- Concatenating the data-url pieces for a png upload. -/
theorem dataUrl_png (f : File) (hm : f.mimetype = lit "image/png") :
    bufferToDataUrl f = lit "data:image/png;base64," ++ base64Encode f.buffer := by
  have h1 : bufferToDataUrl f
      = lit "data:" ++ (lit "image/png"
          ++ (lit ";base64," ++ base64Encode f.buffer)) := by
    unfold bufferToDataUrl
    rw [hm]
    rfl
  rw [h1, ← List.append_assoc, ← List.append_assoc]
  rw [show ((lit "data:" ++ lit "image/png") ++ lit ";base64,")
      = lit "data:image/png;base64," from by decide]

/-- C5: a text/plain upload is rejected with no persistence call; an
upload of exactly 4 MiB + 1 byte is rejected with no persistence call;
an accepted png upload under the cap creates a record whose coverImage
is the data:image/png;base64, prefix followed by the base64 encoding of
the raw bytes, the declared mimetype kept verbatim. -/
theorem C5_image_ingestion (verify : Str → Option Payload)
    (authHeader : Option Str) (u : JSValue)
    (hAuth : verifyTokenMW verify authHeader = Except.ok u)
    (body : ReqBody) (isURL : Str → Bool) (db : List Project)
    (newId : Str) (now : Int) :
    mimeOk (lit "text/plain") = false
    ∧ (∀ f : File, mimeOk f.mimetype = false →
        postProject verify authHeader (some f) body isURL db newId now
          = ({ status := 500,
               message := lit "Format image invalide (JPEG/PNG/WebP)" },
             db, []))
    ∧ (∀ f : File, f.buffer.length = maxFileSize + 1 →
        (postProject verify authHeader (some f) body isURL db newId now).1.status
            = 500
        ∧ (postProject verify authHeader (some f) body isURL db newId
            now).2.1 = db
        ∧ (postProject verify authHeader (some f) body isURL db newId
            now).2.2 = [])
    ∧ (∀ f : File, f.mimetype = lit "image/png" →
        f.buffer.length ≤ maxFileSize → createViolations isURL body = [] →
        postProject verify authHeader (some f) body isURL db newId now
          = ({ status := 201 }, db ++ [mkCreated body (some f) newId now],
             [DbCall.create (mkCreated body (some f) newId now)])
        ∧ (mkCreated body (some f) newId now).coverImage
          = some (lit "data:image/png;base64," ++ base64Encode f.buffer)) := by
  refine ⟨by decide, ?_, ?_, ?_⟩
  · intro f hm
    simp [postProject, hAuth, uploadSingle, hm]
  · intro f hlen
    by_cases hm : mimeOk f.mimetype
    · have hgt : f.buffer.length > maxFileSize := by omega
      refine ⟨?_, ?_, ?_⟩ <;> simp [postProject, hAuth, uploadSingle, hm, hgt]
    · refine ⟨?_, ?_, ?_⟩ <;>
        simp [postProject, hAuth, uploadSingle,
          show mimeOk f.mimetype = false by simpa using hm]
  · intro f hm hlen hval
    have hmok : mimeOk f.mimetype = true := by rw [hm]; decide
    have hng : ¬ f.buffer.length > maxFileSize := by omega
    refine ⟨?_, ?_⟩
    · simp [postProject, hAuth, uploadSingle, hmok, hng, hval,
        handleValidation]
    · simp [mkCreated, Option.map, dataUrl_png f hm]

/-- C5 request body used by the witness: a valid create payload. -/
def B0 : ReqBody :=
  { title := JSValue.str (lit "My project")
    description := JSValue.str (lit "A long enough description") }

/-- C5 file used by the witness: a small png upload. -/
def F0 : File := { mimetype := lit "image/png", buffer := [137, 80, 78] }

/-- C5 witness: a concrete accepted png upload and the concrete rejected
mimetype. -/
theorem C5_image_ingestion_witness :
    postProject (fun _ => some {}) (some (lit "Bearer t")) (some F0) B0
        (fun _ => true) [] (lit "1") 5
      = ({ status := 201 }, [mkCreated B0 (some F0) (lit "1") 5],
         [DbCall.create (mkCreated B0 (some F0) (lit "1") 5)])
    ∧ (mkCreated B0 (some F0) (lit "1") 5).coverImage
      = some (lit "data:image/png;base64," ++ base64Encode F0.buffer)
    ∧ mimeOk (lit "text/plain") = false := by
  have h := C5_image_ingestion (fun _ => some {}) (some (lit "Bearer t"))
    JSValue.null rfl B0 (fun _ => true) [] (lit "1") 5
  have h4 := h.2.2.2 F0 rfl (by decide) (by decide)
  exact ⟨h4.1, h4.2, h.1⟩

/-- C6: a malformed id makes the Get-by-id operation answer 400 with the
validation body before any lookup (the call trace is empty, so never a
404), and a well-formed id with no matching record answers 404 after the
single findById lookup. -/
theorem C6_get_by_id (id : Str) (db : List Project) :
    (checkMongoId id = false →
      getProject id db
        = ({ status := 400, message := lit "Validation error",
             errors := [{ field := lit "id", message := invalidValue }] },
           []))
    ∧ (checkMongoId id = true → dbFindById db id = none →
      getProject id db
        = ({ status := 404, message := lit "Projet introuvable" },
           [DbCall.findById id])) := by
  constructor
  · intro h
    simp [getProject, handleValidation, idViolations, h]
  · intro h hf
    simp [getProject, handleValidation, idViolations, h, hf]

/-- C6 witness: a malformed and a well-formed-but-absent id. -/
theorem C6_get_by_id_witness :
    getProject (lit "zz") [P0]
      = ({ status := 400, message := lit "Validation error",
           errors := [{ field := lit "id", message := invalidValue }] }, [])
    ∧ getProject (lit "0123456789abcdef01234567") [P0]
      = ({ status := 404, message := lit "Projet introuvable" },
         [DbCall.findById (lit "0123456789abcdef01234567")]) :=
  ⟨(C6_get_by_id (lit "zz") [P0]).1 (by decide),
    (C6_get_by_id (lit "0123456789abcdef01234567") [P0]).2 (by decide)
      (by decide)⟩

/-- C7: validation collects every violation: the response is produced
exactly when some rule fails, is a 400 whose body carries the message
and the full violation list, and each possible violation record, named
by its field, is in the list exactly when its rule fails, independently
of the other rules. -/
theorem C7_validation_collects (isURL : Str → Bool) (b : ReqBody) :
    (createViolations isURL b = [] →
      handleValidation (createViolations isURL b) = none)
    ∧ (createViolations isURL b ≠ [] →
      handleValidation (createViolations isURL b)
        = some { status := 400, message := lit "Validation error",
                 errors := createViolations isURL b })
    ∧ (({ field := lit "title", message := invalidValue } : Violation)
        ∈ createViolations isURL b ↔ checkTitleCreate b.title = false)
    ∧ (({ field := lit "description", message := invalidValue } : Violation)
        ∈ createViolations isURL b
        ↔ checkDescriptionCreate b.description = false)
    ∧ (({ field := lit "githubUrl", message := invalidValue } : Violation)
        ∈ createViolations isURL b ↔ checkOptUrl isURL b.githubUrl = false)
    ∧ (({ field := lit "demoUrl", message := invalidValue } : Violation)
        ∈ createViolations isURL b ↔ checkOptUrl isURL b.demoUrl = false) := by
  refine ⟨?_, ?_, ?_, ?_, ?_, ?_⟩
  · intro h
    simp [handleValidation, h]
  · intro h
    unfold handleValidation
    rw [if_neg (by simpa [List.isEmpty_iff] using h)]
  all_goals
    unfold createViolations
    by_cases h1 : checkTitleCreate b.title <;>
      by_cases h2 : checkDescriptionCreate b.description <;>
        by_cases h3 : checkOptUrl isURL b.githubUrl <;>
          by_cases h4 : checkOptUrl isURL b.demoUrl <;>
            simp [h1, h2, h3, h4] <;> decide

/-- C7 request body used by the witness: three failing rules at once. -/
def B1 : ReqBody :=
  { title := JSValue.num 5
    description := JSValue.str (lit "short")
    githubUrl := JSValue.str (lit "notaurl") }

/-- C7 witness: a request failing title, description and githubUrl at
once gets one 400 response listing all three violations. -/
theorem C7_validation_collects_witness :
    handleValidation (createViolations (fun _ => false) B1)
      = some { status := 400, message := lit "Validation error",
               errors := createViolations (fun _ => false) B1 }
    ∧ (({ field := lit "title", message := invalidValue } : Violation)
        ∈ createViolations (fun _ => false) B1
        ↔ checkTitleCreate B1.title = false) :=
  ⟨(C7_validation_collects (fun _ => false) B1).2.1 (by decide),
    (C7_validation_collects (fun _ => false) B1).2.2.1⟩

/-- C10: a cryptographically valid token always passes the gate with
the subject decoded.id || decoded._id || decoded.sub || null; in
particular a payload carrying none of the three claims still succeeds,
with a null subject. -/
theorem C10_missing_subject (verify : Str → Option Payload)
    (authHeader : Option Str) (tok : Str) (payload : Payload)
    (htok : extractToken authHeader = some tok) (hne : tok ≠ [])
    (hv : verify tok = some payload) :
    verifyTokenMW verify authHeader
      = Except.ok (jsOr (jsOr (jsOr payload.id payload._id) payload.sub)
          .null)
    ∧ (payload.id = .undefined → payload._id = .undefined →
        payload.sub = .undefined →
        verifyTokenMW verify authHeader = Except.ok JSValue.null) := by
  have hE : tok.isEmpty = false := by simpa [List.isEmpty_iff] using hne
  constructor
  · unfold verifyTokenMW
    rw [htok]
    simp [hE, hv]
  · intro h1 h2 h3
    unfold verifyTokenMW
    rw [htok]
    simp [hE, hv, h1, h2, h3, jsOr, JSValue.truthy]

/-- C10 witness: a verifier accepting every token with an empty payload
yields success with a null subject. -/
theorem C10_missing_subject_witness :
    verifyTokenMW (fun _ => some {}) (some (lit "Bearer t"))
      = Except.ok JSValue.null :=
  (C10_missing_subject (fun _ => some {}) (some (lit "Bearer t")) (lit "t")
    {} rfl (by decide) rfl).2 rfl rfl rfl
